import Mathlib

/-!
Verification of the `das` data-availability package: certificate wire codec,
mode selection, store-signer address resolution, and the layered
configuration loader.

Bytes are modelled as `Nat` (each value below 256 where it matters),
byte strings as `List Nat`, and Go's `uint64` as `Nat` together with an
explicit `< 2^64` bound where overflow matters.
-/

namespace Das

/-- Modelled from the spec: the DAS message header flag, the leading
header/version byte of a serialized certificate (declared in the external
`arbstate` package, not present in the sources).  Its concrete value is
irrelevant to the claims; decoders must reject any other leading byte. -/
def DASMessageHeaderFlag : Nat := 0x80

/-- Modelled from the spec: the fixed size, in bytes, of the
aggregate-signature encoding produced by `blsSignatures.SignatureToBytes`
(the spec calls it a "fixed-size aggregate-signature encoding"; the BLS
library is an external black box). -/
def sigEncodingLength : Nat := 96

/-- Modelled from the spec (§3 data model) and its use in `das.go`: the
certificate struct `arbstate.DataAvailabilityCertificate`.  `KeysetHash`
and `DataHash` are 32-byte arrays, `Timeout` and `SignersMask` are
`uint64`, and `Sig` is an aggregate signature, modelled here directly by
its fixed-size byte encoding since the BLS scheme is opaque to this code. -/
structure DataAvailabilityCertificate where
  KeysetHash : List Nat
  DataHash : List Nat
  Timeout : Nat
  SignersMask : Nat
  Sig : List Nat
deriving DecidableEq, Repr

/-- Modelled from the spec: `blsSignatures.SignatureToBytes`; with the
signature represented by its byte encoding this is the identity. -/
def SignatureToBytes (s : List Nat) : List Nat := s

/-- Well-formedness of a certificate: the Go field types force the hash
lengths and the 64-bit bounds; the signature encoding has its fixed size. -/
def WellFormedCert (c : DataAvailabilityCertificate) : Prop :=
  c.KeysetHash.length = 32 ∧ c.DataHash.length = 32 ∧
  c.Timeout < 2 ^ 64 ∧ c.SignersMask < 2 ^ 64 ∧
  c.Sig.length = sigEncodingLength

instance (c : DataAvailabilityCertificate) : Decidable (WellFormedCert c) := by
  unfold WellFormedCert; infer_instance

/-- Go `binary.BigEndian.PutUint64`: the eight big-endian bytes of a 64-bit
value (most significant first). -/
def putUint64BE (n : Nat) : List Nat :=
  [n / 2 ^ 56 % 256, n / 2 ^ 48 % 256, n / 2 ^ 40 % 256, n / 2 ^ 32 % 256,
   n / 2 ^ 24 % 256, n / 2 ^ 16 % 256, n / 2 ^ 8 % 256, n % 256]

/-- Go `binary.BigEndian.Uint64`: read bytes as a big-endian number. -/
def readUint64BE (l : List Nat) : Nat :=
  l.foldl (fun acc b => acc * 256 + b) 0

/-- Embeds `serializeSignableFields` from `das.go`: the 32 `DataHash` bytes
followed by `Timeout` as 8 big-endian bytes. -/
def serializeSignableFields (c : DataAvailabilityCertificate) : List Nat :=
  c.DataHash ++ putUint64BE c.Timeout

/-- Embeds `Serialize` from `das.go`: header flag, `KeysetHash`, the signable
fields, `SignersMask` big-endian, then the signature encoding. -/
def Serialize (c : DataAvailabilityCertificate) : List Nat :=
  DASMessageHeaderFlag :: (c.KeysetHash ++ serializeSignableFields c ++
    putUint64BE c.SignersMask ++ SignatureToBytes c.Sig)

/-- Modelled from the spec (§4.3): `deserialize`, the exact inverse of
`Serialize` (it lives in the external `arbstate` package, not in the
sources).  It fails, returning `none`, on an empty or truncated input, on
an unknown leading header flag, and on a signature encoding of the wrong
length. -/
def deserialize (b : List Nat) : Option DataAvailabilityCertificate :=
  match b with
  | [] => none
  | h0 :: rest =>
    if h0 = DASMessageHeaderFlag then
      if (rest.drop 80).length = sigEncodingLength then
        some { KeysetHash := rest.take 32
               DataHash := (rest.drop 32).take 32
               Timeout := readUint64BE ((rest.drop 64).take 8)
               SignersMask := readUint64BE ((rest.drop 72).take 8)
               Sig := rest.drop 80 }
      else none
    else none

/-- Go `encoding/hex` digit value: `0`-`9`, `a`-`f`, `A`-`F`; anything
else is not a hex digit. -/
def hexDigitVal (ch : Char) : Option Nat :=
  if '0' ≤ ch ∧ ch ≤ '9' then some (ch.toNat - '0'.toNat)
  else if 'a' ≤ ch ∧ ch ≤ 'f' then some (ch.toNat - 'a'.toNat + 10)
  else if 'A' ≤ ch ∧ ch ≤ 'F' then some (ch.toNat - 'A'.toNat + 10)
  else none

/-- Go `hex.DecodeString`: decode pairs of hex digits into bytes; fail
(`none`, the embedding of the Go error) on an odd-length input or on any
character that is not a hex digit. -/
def hexDecode : List Char → Option (List Nat)
  | [] => some []
  | [_] => none
  | c1 :: c2 :: rest =>
    match hexDigitVal c1, hexDigitVal c2, hexDecode rest with
    | some v1, some v2, some bs => some ((v1 * 16 + v2) :: bs)
    | _, _, _ => none

/-- Embeds `common.BytesToAddress` from go-ethereum (`Address.SetBytes`): crop to
the last 20 bytes when the input is longer, left-pad with zero bytes when
it is shorter. -/
def BytesToAddress (b : List Nat) : List Nat :=
  if b.length > 20 then b.drop (b.length - 20)
  else List.replicate (20 - b.length) 0 ++ b

/-- Go `strings.TrimPrefix s "0x"` on the character list: drop a leading
`"0x"` when present. -/
def trimHexTag : List Char → List Char
  | '0' :: 'x' :: rest => rest
  | l => l

/-- Equality of `Except` values is decidable when it is for both sides. -/
instance {ε α : Type} [DecidableEq ε] [DecidableEq α] :
    DecidableEq (Except ε α) := fun x y =>
  match x, y with
  | .error a, .error b =>
    if h : a = b then .isTrue (by rw [h])
    else .isFalse (by intro hh; cases hh; exact h rfl)
  | .error _, .ok _ => .isFalse (fun hh => Except.noConfusion hh)
  | .ok _, .error _ => .isFalse (fun hh => Except.noConfusion hh)
  | .ok a, .ok b =>
    if h : a = b then .isTrue (by rw [h])
    else .isFalse (by intro hh; cases hh; exact h rfl)

/-- Embeds `StoreSignerAddressFromString` from `das.go`: `"none"` means no
restriction (`ok none`); any other string is hex-decoded after stripping
an optional `"0x"`, a decode failure is propagated as an error, and the
decoded bytes are converted to an address. -/
def StoreSignerAddressFromString (s : String) :
    Except String (Option (List Nat)) :=
  if s = "none" then .ok none
  else
    match hexDecode (trimHexTag s.toList) with
    | none => .error "encoding/hex: invalid input"
    | some bs => .ok (some (BytesToAddress bs))

/-- The type `DataAvailabilityMode` is `uint64` in the source; the three modes are
consecutive constants. -/
abbrev DataAvailabilityMode := Nat

def OnchainDataAvailability : DataAvailabilityMode := 0

def LocalDiskDataAvailability : DataAvailabilityMode := 1

def AggregatorDataAvailability : DataAvailabilityMode := 2

def OnchainDataAvailabilityString : String := "onchain"

def LocalDiskDataAvailabilityString : String := "local-disk"

def AggregatorDataAvailabilityString : String := "aggregator"

/-- Modelled from the spec (§3/§4.1) and the use in `Mode`: the
`LocalDiskDASConfig` struct is declared outside the sources; `Mode` reads
its `DataDir`, `KeyDir` and `PrivKey` string fields.  Its Go zero value
has every field `""`. -/
structure LocalDiskDASConfig where
  DataDir : String
  KeyDir : String
  PrivKey : String
deriving DecidableEq, Repr

/-- Modelled from the spec (§3/§4.1): the `AggregatorConfig` struct is
declared outside the sources; the spec describes it as committee backend
endpoints plus a quorum-threshold parameter.  `Mode` only compares it
against its default with `reflect.DeepEqual`, embedded as decidable
structural equality. -/
structure AggregatorConfig where
  AssumedHonest : Nat
  Backends : String
deriving DecidableEq, Repr

/-- Modelled from the spec: the all-zero/default `AggregatorConfig`. -/
def DefaultAggregatorConfig : AggregatorConfig :=
  { AssumedHonest := 0, Backends := "" }

/-- Embeds `DataAvailabilityConfig` from `das.go`. -/
structure DataAvailabilityConfig where
  ModeImpl : String
  LocalDiskDASConfig : LocalDiskDASConfig
  AggregatorConfig : AggregatorConfig
  StoreSignerAddress : String
deriving DecidableEq, Repr

/-- Embeds `DefaultDataAvailabilityConfig` from `das.go`: mode `"onchain"`, empty
store-signer, all other fields at their Go zero values. -/
def DefaultDataAvailabilityConfig : DataAvailabilityConfig :=
  { ModeImpl := OnchainDataAvailabilityString
    LocalDiskDASConfig := { DataDir := "", KeyDir := "", PrivKey := "" }
    AggregatorConfig := DefaultAggregatorConfig
    StoreSignerAddress := "" }

/-- Embeds `(*DataAvailabilityConfig).Mode` from `das.go`.  The first component
is the resolved mode or the error message; the second records whether
`flag.Usage()` (the usage-hint side effect) was invoked during the call. -/
def Mode (c : DataAvailabilityConfig) :
    Except String DataAvailabilityMode × Bool :=
  if c.ModeImpl = "" then
    (.error "--data-availability.mode missing", false)
  else if c.ModeImpl = OnchainDataAvailabilityString then
    (.ok OnchainDataAvailability, false)
  else if c.ModeImpl = LocalDiskDataAvailabilityString then
    if c.LocalDiskDASConfig.DataDir = "" ∨
        (c.LocalDiskDASConfig.KeyDir = "" ∧
         c.LocalDiskDASConfig.PrivKey = "") then
      (.error "--data-availability.local-disk.data-dir and .key-dir must be specified if mode is set to local",
       true)
    else
      (.ok LocalDiskDataAvailability, false)
  else if c.ModeImpl = AggregatorDataAvailabilityString then
    if c.AggregatorConfig = DefaultAggregatorConfig then
      (.error "--data-availability.aggregator.X config options must be specified if mode is set to aggregator",
       true)
    else
      (.ok AggregatorDataAvailability, false)
  else
    (.error ("--data-availability.mode " ++ c.ModeImpl ++ " not recognized"),
     true)

end Das

namespace Util

/-- A flat configuration store, as maintained by the koanf instance: each
key maps to at most one value. -/
def ConfStore := String → Option String

/-- The fresh store made by `koanf.New`. -/
def emptyStore : ConfStore := fun _ => none

/-- Koanf `k.String key`: the stored value, or `""` when the key is absent. -/
def getString (k : ConfStore) (key : String) : String := (k key).getD ""

/-- The koanf merge of one optional value over another: the
higher-precedence (later-loaded) binding wins when it is present. -/
def mergeVal (high low : Option String) : Option String :=
  match high with
  | some v => some v
  | none => low

/-- Koanf `k.Load` for an ordinary provider: the provider's bindings win over
the bindings already in the store. -/
def loadProvider (p : ConfStore) (k : ConfStore) : ConfStore :=
  fun key => mergeVal (p key) (k key)

/-- A pflag command-line flag: its name, whether it was explicitly set on
the command line, the value it was set to, and its default value. -/
structure CmdFlag where
  name : String
  changed : Bool
  value : String
  defValue : String
deriving DecidableEq, Repr

/-- Koanf `k.Load(posflag.Provider(f, ".", k), nil)`: an explicitly set flag
always wins; a flag left at its default contributes that default only
when the key is absent from the store. -/
def loadPosflag (flags : List CmdFlag) (k : ConfStore) : ConfStore :=
  fun key =>
    match flags.find? (fun fl => fl.name = key) with
    | some fl =>
      if fl.changed then some fl.value
      else
        match k key with
        | some v => some v
        | none => some fl.defValue
    | none => k key

/-- Modelled from the spec (§6, the configuration surface): the external
configuration sources, each already parsed into a flat store by the
corresponding koanf provider — the parsed command line, the environment
(per env-prefix), local files (per file name), the inline JSON config
string (per its contents), and the S3 object.  Provider loads are assumed
to succeed; the error paths of the Go code are not modelled. -/
structure ConfSources where
  flags : List CmdFlag
  envMap : String → ConfStore
  fileMap : String → ConfStore
  stringMap : String → ConfStore
  s3Map : ConfStore

/-- The value a posflag load contributes for a key from an explicitly
set command-line flag, when there is one. -/
def cliChanged (flags : List CmdFlag) (key : String) : Option String :=
  match flags.find? (fun fl => fl.name = key) with
  | some fl => if fl.changed then some fl.value else none
  | none => none

/-- The default value a posflag load falls back to for a key whose flag
was not explicitly set, when there is one. -/
def cliDefault (flags : List CmdFlag) (key : String) : Option String :=
  match flags.find? (fun fl => fl.name = key) with
  | some fl => if fl.changed then none else some fl.defValue
  | none => none

/-- Embeds `loadEnvironmentVariables` from the loader: read `conf.env-prefix`
from the store and, when it is non-empty, merge the matching environment
variables over the store. -/
def loadEnvironmentVariables (w : ConfSources) (k : ConfStore) : ConfStore :=
  if (getString k "conf.env-prefix").length ≠ 0 then
    loadProvider (w.envMap (getString k "conf.env-prefix")) k
  else k

/-- Embeds `loadS3Variables` from the loader. -/
def loadS3Variables (w : ConfSources) (k : ConfStore) : ConfStore :=
  loadProvider w.s3Map k

/-- Embeds `applyOverrideOverrides` from the loader: the command line, then —
when `conf.string` is set — the inline config string followed by the
command line again, then the environment variables, each merged over the
store in that order. -/
def applyOverrideOverrides (w : ConfSources) (k : ConfStore) : ConfStore :=
  let k1 := loadPosflag w.flags k
  let k2 :=
    if (getString k1 "conf.string").length > 0 then
      loadPosflag w.flags
        (loadProvider (w.stringMap (getString k1 "conf.string")) k1)
    else k1
  loadEnvironmentVariables w k2

/-- Embeds `applyOverrides` from the loader: apply the override chain, then —
when `conf.s3.secret-key` is set — the S3 config followed by the chain
again, then — when `conf.file` is set — the local config file followed by
the chain once more. -/
def applyOverrides (w : ConfSources) (k : ConfStore) : ConfStore :=
  let k1 := applyOverrideOverrides w k
  let k2 :=
    if (getString k1 "conf.s3.secret-key").length ≠ 0 then
      applyOverrideOverrides w (loadS3Variables w k1)
    else k1
  if (getString k2 "conf.file").length > 0 then
    applyOverrideOverrides w
      (loadProvider (w.fileMap (getString k2 "conf.file")) k2)
  else k2

/-- Embeds `BeginCommonParse` from the loader: apply the full override chain to a
fresh store. -/
def BeginCommonParse (w : ConfSources) : ConfStore :=
  applyOverrides w emptyStore

/-- A configuration world in which the key `foo` is set both by an
explicitly changed command-line flag (to `"clival"`) and by an
environment variable (to `"envval"`, under env-prefix `NITRO`), with no
S3, file, or inline-string source configured. -/
def cliEnvScenario : ConfSources :=
  { flags := [⟨"conf.env-prefix", true, "NITRO", ""⟩,
              ⟨"foo", true, "clival", "foodefault"⟩]
    envMap := fun p =>
      if p = "NITRO" then
        fun key => if key = "foo" then some "envval" else none
      else emptyStore
    fileMap := fun _ => emptyStore
    stringMap := fun _ => emptyStore
    s3Map := emptyStore }

/-- A configuration world exercising every source: the four control keys
are set as changed command-line flags, and the data key `foo` is bound by
the environment, the inline config string, the local file, and the S3
object — but not by any command-line flag. -/
def fullChainScenario : ConfSources :=
  { flags := [⟨"conf.env-prefix", true, "NITRO", ""⟩,
              ⟨"conf.string", true, "\x7b\x7d", ""⟩,
              ⟨"conf.file", true, "cfg.json", ""⟩,
              ⟨"conf.s3.secret-key", true, "s3secret", ""⟩]
    envMap := fun p =>
      if p = "NITRO" then
        fun key => if key = "foo" then some "envFoo" else none
      else emptyStore
    fileMap := fun f =>
      if f = "cfg.json" then
        fun key => if key = "foo" then some "fileFoo" else none
      else emptyStore
    stringMap := fun s =>
      if s = "\x7b\x7d" then
        fun key => if key = "foo" then some "strFoo" else none
      else emptyStore
    s3Map := fun key => if key = "foo" then some "s3Foo" else none }

end Util

namespace Das

theorem length_putUint64BE (n : Nat) : (putUint64BE n).length = 8 := rfl

theorem readUint64BE_putUint64BE (n : Nat) (h : n < 2 ^ 64) :
    readUint64BE (putUint64BE n) = n := by
  simp only [putUint64BE, readUint64BE, List.foldl]
  omega

end Das

namespace Das

/-- Helper: `Serialize` with the appends fully right-associated. -/
theorem serialize_assoc (c : DataAvailabilityCertificate) :
    Serialize c = DASMessageHeaderFlag ::
      (c.KeysetHash ++ (c.DataHash ++ (putUint64BE c.Timeout ++
        (putUint64BE c.SignersMask ++ SignatureToBytes c.Sig)))) := by
  simp [Serialize, serializeSignableFields, List.append_assoc]

end Das

/-- C1: `Serialize c` is exactly the header byte, then the 32 `KeysetHash`
bytes, the 32 `DataHash` bytes, `Timeout` big-endian in 8 bytes,
`SignersMask` big-endian in 8 bytes, then the byte encoding of `Sig`, and
nothing else, so its length is 81 plus the signature-encoding length. -/
theorem C1_serialize_layout (c : Das.DataAvailabilityCertificate)
    (hk : c.KeysetHash.length = 32) (hd : c.DataHash.length = 32) :
    Das.Serialize c = Das.DASMessageHeaderFlag :: (c.KeysetHash ++ c.DataHash ++
      Das.putUint64BE c.Timeout ++ Das.putUint64BE c.SignersMask ++
      Das.SignatureToBytes c.Sig) ∧
    (Das.Serialize c).length = 81 + (Das.SignatureToBytes c.Sig).length := by
  constructor
  · simp [Das.Serialize, Das.serializeSignableFields, List.append_assoc]
  · simp [Das.Serialize, Das.serializeSignableFields, Das.SignatureToBytes,
      Das.putUint64BE, hk, hd]
    omega

/-- Witness for C1 at a concrete well-formed certificate. -/
theorem C1_serialize_layout_witness :
    Das.Serialize ⟨List.replicate 32 1, List.replicate 32 2, 1700000000, 3,
        List.replicate 96 7⟩ =
      Das.DASMessageHeaderFlag :: (List.replicate 32 1 ++ List.replicate 32 2 ++
        Das.putUint64BE 1700000000 ++ Das.putUint64BE 3 ++
        Das.SignatureToBytes (List.replicate 96 7)) ∧
    (Das.Serialize ⟨List.replicate 32 1, List.replicate 32 2, 1700000000, 3,
        List.replicate 96 7⟩).length = 81 + 96 :=
  C1_serialize_layout ⟨List.replicate 32 1, List.replicate 32 2, 1700000000, 3,
    List.replicate 96 7⟩ (by simp) (by simp)

/-- C2: the signable-fields encoding is exactly the 32 `DataHash` bytes
followed by `Timeout` as 8 big-endian bytes (40 bytes total); it does not
depend on `KeysetHash` or `SignersMask` (nor `Sig`); and it appears
verbatim in `Serialize c` at offset 33, after the header byte and the 32
`KeysetHash` bytes. -/
theorem C2_signable_fields (c c' : Das.DataAvailabilityCertificate)
    (hk : c.KeysetHash.length = 32) (hd : c.DataHash.length = 32)
    (hdd : c'.DataHash = c.DataHash) (ht : c'.Timeout = c.Timeout) :
    Das.serializeSignableFields c = c.DataHash ++ Das.putUint64BE c.Timeout ∧
    (Das.serializeSignableFields c).length = 40 ∧
    Das.serializeSignableFields c' = Das.serializeSignableFields c ∧
    (Das.Serialize c).take 33 = Das.DASMessageHeaderFlag :: c.KeysetHash ∧
    ((Das.Serialize c).drop 33).take 40 = Das.serializeSignableFields c := by
  have hsf : (Das.serializeSignableFields c).length = 40 := by
    simp [Das.serializeSignableFields, Das.putUint64BE, hd]
  refine ⟨rfl, hsf, ?_, ?_, ?_⟩
  · simp [Das.serializeSignableFields, hdd, ht]
  · have : (Das.Serialize c).take 33 =
        Das.DASMessageHeaderFlag :: ((c.KeysetHash ++
          (Das.serializeSignableFields c ++ (Das.putUint64BE c.SignersMask ++
            Das.SignatureToBytes c.Sig))).take 32) := by
      rw [Das.serialize_assoc]
      simp [Das.serializeSignableFields, List.append_assoc]
    rw [this, List.take_left' hk]
  · have hdrop : (Das.Serialize c).drop 33 =
        Das.serializeSignableFields c ++ (Das.putUint64BE c.SignersMask ++
          Das.SignatureToBytes c.Sig) := by
      rw [Das.serialize_assoc]
      show (c.KeysetHash ++ (c.DataHash ++ (Das.putUint64BE c.Timeout ++
        (Das.putUint64BE c.SignersMask ++ Das.SignatureToBytes c.Sig)))).drop 32 =
        _
      rw [List.drop_left' hk]
      simp [Das.serializeSignableFields, List.append_assoc]
    rw [hdrop, List.take_left' hsf]

/-- Witness for C2 at concrete certificates differing only in the unsigned
fields. -/
theorem C2_signable_fields_witness :
    Das.serializeSignableFields ⟨List.replicate 32 1, List.replicate 32 2, 5, 3,
        List.replicate 96 7⟩ =
      List.replicate 32 2 ++ Das.putUint64BE 5 ∧
    (Das.serializeSignableFields ⟨List.replicate 32 1, List.replicate 32 2, 5, 3,
        List.replicate 96 7⟩).length = 40 ∧
    Das.serializeSignableFields ⟨List.replicate 32 9, List.replicate 32 2, 5, 60,
        []⟩ =
      Das.serializeSignableFields ⟨List.replicate 32 1, List.replicate 32 2, 5, 3,
        List.replicate 96 7⟩ ∧
    (Das.Serialize ⟨List.replicate 32 1, List.replicate 32 2, 5, 3,
        List.replicate 96 7⟩).take 33 =
      Das.DASMessageHeaderFlag :: List.replicate 32 1 ∧
    ((Das.Serialize ⟨List.replicate 32 1, List.replicate 32 2, 5, 3,
        List.replicate 96 7⟩).drop 33).take 40 =
      Das.serializeSignableFields ⟨List.replicate 32 1, List.replicate 32 2, 5, 3,
        List.replicate 96 7⟩ :=
  C2_signable_fields ⟨List.replicate 32 1, List.replicate 32 2, 5, 3,
      List.replicate 96 7⟩ ⟨List.replicate 32 9, List.replicate 32 2, 5, 60, []⟩
    (by simp) (by simp) rfl rfl

/-- C3: deserialization inverts `Serialize` on every well-formed
certificate, and fails with `none` (the embedding of a Go error; the
function is total, so no panic) on any input of the wrong total length —
in particular every truncated input and every signature encoding of the
wrong length — and on any input whose leading header flag is not the DAS
message header flag. -/
theorem C3_roundtrip (c : Das.DataAvailabilityCertificate) (b : List Nat)
    (h0 : Nat) (rest : List Nat) (hwf : Das.WellFormedCert c) :
    Das.deserialize (Das.Serialize c) = some c ∧
    (b.length ≠ 81 + Das.sigEncodingLength → Das.deserialize b = none) ∧
    (h0 ≠ Das.DASMessageHeaderFlag → Das.deserialize (h0 :: rest) = none) := by
  refine ⟨?_, ?_, ?_⟩
  · obtain ⟨K, D, T, M, S⟩ := c
    obtain ⟨hk, hd, ht, hm, hs⟩ := hwf
    simp only at hk hd ht hm hs
    rw [Das.serialize_assoc]
    simp only
    set R := K ++ (D ++ (Das.putUint64BE T ++ (Das.putUint64BE M ++
      Das.SignatureToBytes S))) with hR
    have h32 : R.take 32 = K := List.take_left' hk
    have hd32 : R.drop 32 = D ++ (Das.putUint64BE T ++ (Das.putUint64BE M ++
        Das.SignatureToBytes S)) := List.drop_left' hk
    have hd64 : R.drop 64 = Das.putUint64BE T ++ (Das.putUint64BE M ++
        Das.SignatureToBytes S) := by
      have h' : (R.drop 32).drop 32 = R.drop 64 := by
        rw [List.drop_drop]
      rw [← h', hd32, List.drop_left' hd]
    have hd72 : R.drop 72 = Das.putUint64BE M ++ Das.SignatureToBytes S := by
      have h' : (R.drop 64).drop 8 = R.drop 72 := by
        rw [List.drop_drop]
      rw [← h', hd64, List.drop_left' (Das.length_putUint64BE T)]
    have hd80 : R.drop 80 = Das.SignatureToBytes S := by
      have h' : (R.drop 72).drop 8 = R.drop 80 := by
        rw [List.drop_drop]
      rw [← h', hd72, List.drop_left' (Das.length_putUint64BE M)]
    simp only [Das.deserialize, if_pos rfl]
    have hslen : (Das.SignatureToBytes S).length = Das.sigEncodingLength := hs
    rw [hd80, if_pos hslen, h32, hd32, hd64, hd72,
      List.take_left' hd, List.take_left' (Das.length_putUint64BE T),
      List.take_left' (Das.length_putUint64BE M),
      Das.readUint64BE_putUint64BE T ht, Das.readUint64BE_putUint64BE M hm]
    simp [Das.SignatureToBytes]
  · intro hlen
    match b with
    | [] => rfl
    | h :: r =>
      simp only [Das.deserialize, List.length_drop]
      have hr : ¬ (r.length - 80 = Das.sigEncodingLength) := by
        simp only [List.length_cons, Das.sigEncodingLength] at hlen ⊢
        omega
      simp [hr]
  · intro hne
    simp [Das.deserialize, hne]

/-- Witness for C3: a round trip on a concrete well-formed certificate,
plus rejection of a wrong-length input and of a wrong header byte. -/
theorem C3_roundtrip_witness :
    Das.deserialize (Das.Serialize ⟨List.replicate 32 1, List.replicate 32 2,
        1700000000, 3, List.replicate 96 7⟩) =
      some ⟨List.replicate 32 1, List.replicate 32 2, 1700000000, 3,
        List.replicate 96 7⟩ ∧
    Das.deserialize (List.replicate 40 0) = none ∧
    Das.deserialize (0x79 :: List.replicate 176 0) = none :=
  ⟨(C3_roundtrip ⟨List.replicate 32 1, List.replicate 32 2, 1700000000, 3,
      List.replicate 96 7⟩ (List.replicate 40 0) 0x79 (List.replicate 176 0)
      (by decide)).1,
   (C3_roundtrip ⟨List.replicate 32 1, List.replicate 32 2, 1700000000, 3,
      List.replicate 96 7⟩ (List.replicate 40 0) 0x79 (List.replicate 176 0)
      (by decide)).2.1 (by decide),
   (C3_roundtrip ⟨List.replicate 32 1, List.replicate 32 2, 1700000000, 3,
      List.replicate 96 7⟩ (List.replicate 40 0) 0x79 (List.replicate 176 0)
      (by decide)).2.2 (by decide)⟩

namespace Das

/-- Helper: an odd-length input never hex-decodes. -/
theorem hexDecode_odd_length : ∀ l : List Char, l.length % 2 = 1 →
    hexDecode l = none
  | [], h => by simp at h
  | [_], _ => rfl
  | c1 :: c2 :: rest, h => by
    have ih := hexDecode_odd_length rest (by
      simp only [List.length_cons] at h
      omega)
    rcases h1 : hexDigitVal c1 with _ | v1 <;>
      rcases h2 : hexDigitVal c2 with _ | v2 <;>
        simp [hexDecode, h1, h2, ih]

/-- Helper: an input containing a non-hex character never hex-decodes. -/
theorem hexDecode_invalid_char : ∀ (l : List Char) (ch : Char), ch ∈ l →
    hexDigitVal ch = none → hexDecode l = none
  | [], ch, hm, _ => by simp at hm
  | [_], _, _, _ => rfl
  | c1 :: c2 :: rest, ch, hm, hv => by
    rcases List.mem_cons.mp hm with h1 | hm1
    · subst h1
      rcases h2 : hexDigitVal c2 with _ | v2 <;>
        rcases h3 : hexDecode rest with _ | bs <;>
          simp [hexDecode, hv, h2, h3]
    · rcases List.mem_cons.mp hm1 with h2 | hm2
      · subst h2
        rcases h1 : hexDigitVal c1 with _ | v1 <;>
          rcases h3 : hexDecode rest with _ | bs <;>
            simp [hexDecode, hv, h1, h3]
      · have ih := hexDecode_invalid_char rest ch hm2 hv
        rcases h1 : hexDigitVal c1 with _ | v1 <;>
          rcases h2 : hexDigitVal c2 with _ | v2 <;>
            simp [hexDecode, h1, h2, ih]

end Das

/-- C4 counterexample: `"ab"` is valid hex but decodes to a single byte,
not 20, and the resolver silently accepts it, returning the zero-padded
address with no error — contradicting the claim that hex input decoding
to a length other than 20 bytes is not silently accepted. -/
theorem C4_counterexample :
    Das.hexDecode (Das.trimHexTag "ab".toList) = some [171] ∧
    (171 : Nat) < 256 ∧ [171].length ≠ 20 ∧
    Das.StoreSignerAddressFromString "ab" =
      .ok (some (List.replicate 19 0 ++ [171])) := by
  decide

/-- C4 amended: for input exactly `"none"` the resolver returns no
restriction and no error; every other input has an optional `"0x"`
stripped and the remainder hex-decoded, failing with a decode error when
the remainder is odd-length or contains a non-hex character, and
otherwise succeeding with the decoded bytes converted (padded or
truncated) to a 20-byte address, whatever their number. -/
theorem C4_amended (s : String) (bytes : List Nat) (l : List Char)
    (ch : Char) :
    Das.StoreSignerAddressFromString "none" = .ok none ∧
    (s ≠ "none" → Das.hexDecode (Das.trimHexTag s.toList) = none →
      Das.StoreSignerAddressFromString s =
        .error "encoding/hex: invalid input") ∧
    (s ≠ "none" → Das.hexDecode (Das.trimHexTag s.toList) = some bytes →
      Das.StoreSignerAddressFromString s =
        .ok (some (Das.BytesToAddress bytes))) ∧
    (l.length % 2 = 1 → Das.hexDecode l = none) ∧
    (ch ∈ l → Das.hexDigitVal ch = none → Das.hexDecode l = none) := by
  refine ⟨by decide, ?_, ?_, Das.hexDecode_odd_length l,
    Das.hexDecode_invalid_char l ch⟩
  · intro hne hdec
    simp only [String.toList] at hdec
    simp [Das.StoreSignerAddressFromString, String.toList, hne, hdec]
  · intro hne hdec
    simp only [String.toList] at hdec
    simp [Das.StoreSignerAddressFromString, String.toList, hne, hdec]

/-- Witness for C4 amended: the sentinel, a non-hex failure, an accepted
short hex input, an odd-length failure, and an invalid-character failure,
all concrete. -/
theorem C4_amended_witness :
    Das.StoreSignerAddressFromString "none" = .ok none ∧
    Das.StoreSignerAddressFromString "zz" =
      .error "encoding/hex: invalid input" ∧
    Das.StoreSignerAddressFromString "0xff" =
      .ok (some (Das.BytesToAddress [255])) ∧
    Das.hexDecode ['a'] = none ∧
    Das.hexDecode ['z', 'z'] = none :=
  ⟨(C4_amended "x" [] [] 'z').1,
   (C4_amended "zz" [] [] 'z').2.1 (by decide) (by decide),
   (C4_amended "0xff" [255] [] 'z').2.2.1 (by decide) (by decide),
   (C4_amended "x" [] ['a'] 'z').2.2.2.1 (by decide),
   (C4_amended "x" [] ['z', 'z'] 'z').2.2.2.2 (by decide) (by decide)⟩

/-- C9: the empty string is not treated as "no restriction": it
hex-decodes to zero bytes, which are padded to the all-zero 20-byte
address, returned with no error — although the default configuration's
store-signer value is exactly the empty string. -/
theorem C9_empty_store_signer :
    Das.StoreSignerAddressFromString "" = .ok (some (List.replicate 20 0)) ∧
    Das.StoreSignerAddressFromString "" ≠ .ok none ∧
    Das.DefaultDataAvailabilityConfig.StoreSignerAddress = "" := by
  decide

/-- C10: any input other than `"none"` whose post-`"0x"` remainder is
valid even-length hex is accepted with no error, whatever the decoded
length: more than 20 decoded bytes keep only the final 20, fewer are
left-padded with zero bytes. -/
theorem C10_any_length_accepted (s : String) (bytes : List Nat)
    (hne : s ≠ "none")
    (hdec : Das.hexDecode (Das.trimHexTag s.toList) = some bytes) :
    Das.StoreSignerAddressFromString s =
      .ok (some (Das.BytesToAddress bytes)) ∧
    (20 < bytes.length →
      Das.BytesToAddress bytes = bytes.drop (bytes.length - 20)) ∧
    (bytes.length ≤ 20 →
      Das.BytesToAddress bytes =
        List.replicate (20 - bytes.length) 0 ++ bytes) := by
  refine ⟨?_, ?_, ?_⟩
  · simp only [String.toList] at hdec
    simp [Das.StoreSignerAddressFromString, String.toList, hne, hdec]
  · intro h
    simp only [Das.BytesToAddress]
    rw [if_pos h]
  · intro h
    simp only [Das.BytesToAddress]
    rw [if_neg (by omega)]

/-- Witness for C10: a 22-byte decode is truncated to its last 20 bytes,
concretely. -/
theorem C10_any_length_accepted_witness :
    Das.StoreSignerAddressFromString
        "0x112233445566778899aabbccddeeff00112233445566" =
      .ok (some (Das.BytesToAddress [17, 34, 51, 68, 85, 102, 119, 136, 153,
        170, 187, 204, 221, 238, 255, 0, 17, 34, 51, 68, 85, 102])) ∧
    Das.BytesToAddress [17, 34, 51, 68, 85, 102, 119, 136, 153, 170, 187,
        204, 221, 238, 255, 0, 17, 34, 51, 68, 85, 102] =
      [17, 34, 51, 68, 85, 102, 119, 136, 153, 170, 187, 204, 221, 238, 255,
        0, 17, 34, 51, 68, 85, 102].drop
        ([17, 34, 51, 68, 85, 102, 119, 136, 153, 170, 187, 204, 221, 238,
          255, 0, 17, 34, 51, 68, 85, 102].length - 20) :=
  ⟨(C10_any_length_accepted
      "0x112233445566778899aabbccddeeff00112233445566"
      [17, 34, 51, 68, 85, 102, 119, 136, 153, 170, 187, 204, 221, 238, 255,
        0, 17, 34, 51, 68, 85, 102] (by decide) (by decide)).1,
   (C10_any_length_accepted
      "0x112233445566778899aabbccddeeff00112233445566"
      [17, 34, 51, 68, 85, 102, 119, 136, 153, 170, 187, 204, 221, 238, 255,
        0, 17, 34, 51, 68, 85, 102] (by decide) (by decide)).2.1
     (by decide)⟩

/-- C5: with mode string `"local-disk"`, mode resolution returns the
local-disk mode exactly when `data-dir` is non-empty and at least one of
`key-dir` or the inline private key is non-empty; otherwise it returns
the missing-required-local-disk-parameters error, with the usage hint
emitted during the call. -/
theorem C5_mode_local_disk (c : Das.DataAvailabilityConfig)
    (h : c.ModeImpl = "local-disk") :
    ((Das.Mode c).1 = .ok Das.LocalDiskDataAvailability ↔
      c.LocalDiskDASConfig.DataDir ≠ "" ∧
        (c.LocalDiskDASConfig.KeyDir ≠ "" ∨
          c.LocalDiskDASConfig.PrivKey ≠ "")) ∧
    (¬(c.LocalDiskDASConfig.DataDir ≠ "" ∧
        (c.LocalDiskDASConfig.KeyDir ≠ "" ∨
          c.LocalDiskDASConfig.PrivKey ≠ "")) →
      Das.Mode c =
        (.error "--data-availability.local-disk.data-dir and .key-dir must be specified if mode is set to local",
         true)) := by
  by_cases hcond : c.LocalDiskDASConfig.DataDir = "" ∨
      (c.LocalDiskDASConfig.KeyDir = "" ∧ c.LocalDiskDASConfig.PrivKey = "")
  · have hm : Das.Mode c =
        (.error "--data-availability.local-disk.data-dir and .key-dir must be specified if mode is set to local",
         true) := by
      simp [Das.Mode, h, Das.OnchainDataAvailabilityString,
        Das.LocalDiskDataAvailabilityString, hcond]
    refine ⟨?_, fun _ => hm⟩
    rw [hm]
    constructor
    · intro hh; exact absurd hh (by simp)
    · intro hh; tauto
  · have hm : Das.Mode c = (.ok Das.LocalDiskDataAvailability, false) := by
      simp [Das.Mode, h, Das.OnchainDataAvailabilityString,
        Das.LocalDiskDataAvailabilityString, hcond]
    refine ⟨?_, fun hno => ?_⟩
    · rw [hm]; simp; tauto
    · tauto

/-- Witness for C5: the all-empty local-disk sub-config fails with the
usage hint; a populated one resolves to the local-disk mode. -/
theorem C5_mode_local_disk_witness :
    Das.Mode ⟨"local-disk", ⟨"", "", ""⟩, Das.DefaultAggregatorConfig, ""⟩ =
      (.error "--data-availability.local-disk.data-dir and .key-dir must be specified if mode is set to local",
       true) ∧
    (Das.Mode ⟨"local-disk", ⟨"/data", "/keys", ""⟩,
        Das.DefaultAggregatorConfig, ""⟩).1 =
      .ok Das.LocalDiskDataAvailability :=
  ⟨(C5_mode_local_disk
      ⟨"local-disk", ⟨"", "", ""⟩, Das.DefaultAggregatorConfig, ""⟩ rfl).2
      (by decide),
   (C5_mode_local_disk
      ⟨"local-disk", ⟨"/data", "/keys", ""⟩, Das.DefaultAggregatorConfig, ""⟩
      rfl).1.mpr (by decide)⟩

/-- C6: with mode string `"aggregator"`, mode resolution returns the
aggregator mode exactly when the aggregator sub-config differs from its
all-default value; at the default it fails with the configuration error,
whose message names the aggregator section, with the usage hint emitted. -/
theorem C6_mode_aggregator (c : Das.DataAvailabilityConfig)
    (h : c.ModeImpl = "aggregator") :
    ((Das.Mode c).1 = .ok Das.AggregatorDataAvailability ↔
      c.AggregatorConfig ≠ Das.DefaultAggregatorConfig) ∧
    (c.AggregatorConfig = Das.DefaultAggregatorConfig →
      Das.Mode c =
        (.error "--data-availability.aggregator.X config options must be specified if mode is set to aggregator",
         true)) ∧
    List.IsInfix "aggregator".toList
      "--data-availability.aggregator.X config options must be specified if mode is set to aggregator".toList := by
  refine ⟨?_, ?_, by decide⟩
  · by_cases hcond : c.AggregatorConfig = Das.DefaultAggregatorConfig
    · have hm : (Das.Mode c).1 =
          .error "--data-availability.aggregator.X config options must be specified if mode is set to aggregator" := by
        simp [Das.Mode, h, Das.OnchainDataAvailabilityString,
          Das.LocalDiskDataAvailabilityString,
          Das.AggregatorDataAvailabilityString, hcond]
      rw [hm]
      constructor
      · intro hh; exact absurd hh (by simp)
      · intro hh; exact absurd hcond hh
    · have hm : (Das.Mode c).1 = .ok Das.AggregatorDataAvailability := by
        simp [Das.Mode, h, Das.OnchainDataAvailabilityString,
          Das.LocalDiskDataAvailabilityString,
          Das.AggregatorDataAvailabilityString, hcond]
      rw [hm]
      simp [hcond]
  · intro hcond
    simp [Das.Mode, h, Das.OnchainDataAvailabilityString,
      Das.LocalDiskDataAvailabilityString,
      Das.AggregatorDataAvailabilityString, hcond]

/-- Witness for C6: the default aggregator sub-config fails naming the
aggregator section; a non-default one resolves to the aggregator mode. -/
theorem C6_mode_aggregator_witness :
    Das.Mode ⟨"aggregator", ⟨"", "", ""⟩, Das.DefaultAggregatorConfig, ""⟩ =
      (.error "--data-availability.aggregator.X config options must be specified if mode is set to aggregator",
       true) ∧
    (Das.Mode ⟨"aggregator", ⟨"", "", ""⟩, ⟨1, "http://backend"⟩, ""⟩).1 =
      .ok Das.AggregatorDataAvailability :=
  ⟨(C6_mode_aggregator
      ⟨"aggregator", ⟨"", "", ""⟩, Das.DefaultAggregatorConfig, ""⟩ rfl).2.1
      rfl,
   (C6_mode_aggregator
      ⟨"aggregator", ⟨"", "", ""⟩, ⟨1, "http://backend"⟩, ""⟩ rfl).1.mpr
      (by decide)⟩

/-- C7: for a mode string that is none of `"onchain"`, `"local-disk"`,
`"aggregator"` — the empty string included — mode resolution returns an
error and never a resolved mode, and when the string is non-empty the
error message names it. -/
theorem C7_mode_unrecognized (c : Das.DataAvailabilityConfig)
    (m : Das.DataAvailabilityMode)
    (h1 : c.ModeImpl ≠ "onchain") (h2 : c.ModeImpl ≠ "local-disk")
    (h3 : c.ModeImpl ≠ "aggregator") :
    (∃ msg, (Das.Mode c).1 = .error msg) ∧
    (Das.Mode c).1 ≠ .ok m ∧
    (c.ModeImpl ≠ "" →
      (Das.Mode c).1 =
        .error ("--data-availability.mode " ++ c.ModeImpl ++
          " not recognized")) := by
  by_cases hempty : c.ModeImpl = ""
  · have hm : (Das.Mode c).1 = .error "--data-availability.mode missing" := by
      simp [Das.Mode, hempty]
    exact ⟨⟨_, hm⟩, by rw [hm]; simp, fun hne => absurd hempty hne⟩
  · have hm : (Das.Mode c).1 =
        .error ("--data-availability.mode " ++ c.ModeImpl ++
          " not recognized") := by
      simp [Das.Mode, hempty, Das.OnchainDataAvailabilityString,
        Das.LocalDiskDataAvailabilityString,
        Das.AggregatorDataAvailabilityString, h1, h2, h3]
    exact ⟨⟨_, hm⟩, by rw [hm]; simp, fun _ => hm⟩

/-- Witness for C7: the unrecognized mode string `"bogus"` is named in the
error, and the empty mode string also errors. -/
theorem C7_mode_unrecognized_witness :
    (∃ msg, (Das.Mode ⟨"bogus", ⟨"", "", ""⟩, Das.DefaultAggregatorConfig,
        ""⟩).1 = .error msg) ∧
    (Das.Mode ⟨"bogus", ⟨"", "", ""⟩, Das.DefaultAggregatorConfig, ""⟩).1 ≠
      .ok Das.OnchainDataAvailability ∧
    (Das.Mode ⟨"bogus", ⟨"", "", ""⟩, Das.DefaultAggregatorConfig, ""⟩).1 =
      .error "--data-availability.mode bogus not recognized" :=
  ⟨(C7_mode_unrecognized ⟨"bogus", ⟨"", "", ""⟩, Das.DefaultAggregatorConfig,
      ""⟩ Das.OnchainDataAvailability (by decide) (by decide) (by decide)).1,
   (C7_mode_unrecognized ⟨"bogus", ⟨"", "", ""⟩, Das.DefaultAggregatorConfig,
      ""⟩ Das.OnchainDataAvailability (by decide) (by decide) (by decide)).2.1,
   (C7_mode_unrecognized ⟨"bogus", ⟨"", "", ""⟩, Das.DefaultAggregatorConfig,
      ""⟩ Das.OnchainDataAvailability (by decide) (by decide) (by decide)).2.2
     (by decide)⟩

namespace Util

/-- A non-empty string has positive length. -/
theorem length_pos_of_ne (s : String) (h : s ≠ "") : 0 < s.length := by
  rcases s with ⟨data⟩
  cases data with
  | nil => exact absurd rfl h
  | cons a as => simp [String.length]

/-- A posflag load, read pointwise: the explicitly set flag value, else
the existing binding, else the flag default. -/
theorem loadPosflag_eq (flags : List CmdFlag) (k : ConfStore) (key : String) :
    loadPosflag flags k key =
      mergeVal (cliChanged flags key)
        (mergeVal (k key) (cliDefault flags key)) := by
  rcases hf : flags.find? (fun fl => fl.name = key) with _ | fl
  · rcases hk : k key with _ | v <;>
      simp [loadPosflag, cliChanged, cliDefault, mergeVal, hf, hk]
  · rcases hb : fl.changed with _ | _ <;> rcases hk : k key with _ | v <;>
      simp [loadPosflag, cliChanged, cliDefault, mergeVal, hf, hb, hk]

/-- An explicitly set flag fixes `cliChanged` at its key. -/
theorem cliChanged_of_find (flags : List CmdFlag) (key v d : String)
    (h : flags.find? (fun fl => fl.name = key) = some ⟨key, true, v, d⟩) :
    cliChanged flags key = some v := by
  simp [cliChanged, h]

/-- Reading a key straight after a posflag load, when that key's flag is
explicitly set, yields the flag's value whatever the store held. -/
theorem getString_loadPosflag (flags : List CmdFlag) (k : ConfStore)
    (key v d : String)
    (h : flags.find? (fun fl => fl.name = key) = some ⟨key, true, v, d⟩) :
    getString (loadPosflag flags k) key = v := by
  simp [getString, loadPosflag_eq, cliChanged_of_find flags key v d h, mergeVal]

/-- One pass of `applyOverrideOverrides`, read pointwise, when
`conf.env-prefix` and `conf.string` are explicitly set non-empty on the
command line: environment over changed flags over the config string over
the incoming store over flag defaults. -/
theorem applyOverrideOverrides_eq (w : ConfSources) (k : ConfStore)
    (p cs dp ds : String)
    (hp : w.flags.find? (fun fl => fl.name = "conf.env-prefix") =
      some ⟨"conf.env-prefix", true, p, dp⟩)
    (hcs : w.flags.find? (fun fl => fl.name = "conf.string") =
      some ⟨"conf.string", true, cs, ds⟩)
    (hp0 : p ≠ "") (hcs0 : cs ≠ "") (key : String) :
    applyOverrideOverrides w k key =
      mergeVal (w.envMap p key) (mergeVal (cliChanged w.flags key)
        (mergeVal (w.stringMap cs key)
          (mergeVal (k key) (cliDefault w.flags key)))) := by
  simp only [applyOverrideOverrides]
  rw [getString_loadPosflag w.flags k "conf.string" cs ds hcs,
    if_pos (length_pos_of_ne cs hcs0)]
  simp only [loadEnvironmentVariables]
  rw [getString_loadPosflag w.flags _ "conf.env-prefix" p dp hp,
    if_pos (length_pos_of_ne p hp0).ne']
  simp only [loadProvider, loadPosflag_eq]
  generalize cliChanged w.flags key = b
  generalize w.stringMap cs key = c
  generalize k key = d
  generalize cliDefault w.flags key = e
  cases b <;> cases c <;> cases d <;> cases e <;> rfl

end Util

/-- C8 counterexample: key `foo` is explicitly set to `"clival"` on the
command line and to `"envval"` in the environment; the final
configuration holds the environment's value, so a command-line flag IS
overridden by an environment variable, contradicting the claimed
CLI-strongest precedence. -/
theorem C8_counterexample :
    Util.cliChanged Util.cliEnvScenario.flags "foo" = some "clival" ∧
    Util.cliEnvScenario.envMap "NITRO" "foo" = some "envval" ∧
    Util.BeginCommonParse Util.cliEnvScenario "foo" = some "envval" ∧
    Util.BeginCommonParse Util.cliEnvScenario "foo" ≠ some "clival" := by
  decide

/-- C8 amended: the loader merges its sources with strict precedence,
strongest first: environment variables, then explicitly set command-line
flags, then the inline config string, then the local config file, then
the S3 config, then command-line flag defaults.  Stated for any world
whose four control keys (`conf.env-prefix`, `conf.string`, `conf.file`,
`conf.s3.secret-key`) are explicitly set non-empty on the command line
and not rebound by the environment. -/
theorem C8_amended (w : Util.ConfSources)
    (p cs fn sk dp ds df dk key : String)
    (hp : w.flags.find? (fun fl => fl.name = "conf.env-prefix") =
      some ⟨"conf.env-prefix", true, p, dp⟩)
    (hcs : w.flags.find? (fun fl => fl.name = "conf.string") =
      some ⟨"conf.string", true, cs, ds⟩)
    (hfn : w.flags.find? (fun fl => fl.name = "conf.file") =
      some ⟨"conf.file", true, fn, df⟩)
    (hsk : w.flags.find? (fun fl => fl.name = "conf.s3.secret-key") =
      some ⟨"conf.s3.secret-key", true, sk, dk⟩)
    (hp0 : p ≠ "") (hcs0 : cs ≠ "") (hfn0 : fn ≠ "") (hsk0 : sk ≠ "")
    (hef : w.envMap p "conf.file" = none)
    (hes : w.envMap p "conf.s3.secret-key" = none) :
    Util.BeginCommonParse w key =
      Util.mergeVal (w.envMap p key)
        (Util.mergeVal (Util.cliChanged w.flags key)
          (Util.mergeVal (w.stringMap cs key)
            (Util.mergeVal (w.fileMap fn key)
              (Util.mergeVal (w.s3Map key)
                (Util.cliDefault w.flags key))))) := by
  have hAOO := fun (k : Util.ConfStore) (x : String) =>
    Util.applyOverrideOverrides_eq w k p cs dp ds hp hcs hp0 hcs0 x
  simp only [Util.BeginCommonParse, Util.applyOverrides]
  have h1 : Util.getString (Util.applyOverrideOverrides w Util.emptyStore)
      "conf.s3.secret-key" = sk := by
    simp [Util.getString, hAOO Util.emptyStore "conf.s3.secret-key", hes,
      Util.cliChanged_of_find _ _ _ _ hsk, Util.mergeVal]
  rw [h1, if_pos (Util.length_pos_of_ne sk hsk0).ne']
  have h2 : Util.getString (Util.applyOverrideOverrides w
      (Util.loadS3Variables w (Util.applyOverrideOverrides w Util.emptyStore)))
      "conf.file" = fn := by
    simp [Util.getString, hAOO _ "conf.file", hef,
      Util.cliChanged_of_find _ _ _ _ hfn, Util.mergeVal,
      Util.loadS3Variables, Util.loadProvider]
  rw [h2, if_pos (Util.length_pos_of_ne fn hfn0)]
  simp only [hAOO, Util.loadProvider, Util.loadS3Variables, Util.emptyStore]
  generalize w.envMap p key = a
  generalize Util.cliChanged w.flags key = b
  generalize w.stringMap cs key = c
  generalize w.fileMap fn key = d
  generalize w.s3Map key = e
  generalize Util.cliDefault w.flags key = f
  cases a <;> cases b <;> cases c <;> cases d <;> cases e <;> cases f <;> rfl

/-- Witness for C8 amended: in the full-chain scenario all hypotheses
hold concretely, and the key `foo` — bound by environment, string, file,
and S3 — resolves to the environment's value. -/
theorem C8_amended_witness :
    Util.BeginCommonParse Util.fullChainScenario "foo" = some "envFoo" := by
  have h := C8_amended Util.fullChainScenario "NITRO" "\x7b\x7d" "cfg.json"
    "s3secret" "" "" "" "" "foo" (by decide) (by decide) (by decide)
    (by decide) (by decide) (by decide) (by decide) (by decide) (by decide)
    (by decide)
  rw [h]
  decide
